import Mathlib

/-!
Verification of the extension-studio core (version utilities, manifest
validation, extension registry, package builder, cloud resource manager)
against its natural-language specification.  The TypeScript sources are
shallowly embedded: pure functions become Lean functions, the stateful
registry and resource manager become explicit state-passing functions,
JavaScript numbers arising from parsing version components are modelled
by an explicit type with NaN and undefined, and the DOM clock and fetch
are passed in as parameters.
-/

/-- Model of the JavaScript numeric values that arise in the version
utilities: a proper (integer) number, NaN (from Number/parseInt on a
non-numeric string), or undefined (from an out-of-bounds array read). -/
inductive JsNum where
  | undef
  | nan
  | num (n : Int)
deriving DecidableEq, Repr

/-- JavaScript strict equality on the modelled numeric values:
NaN === anything is false (including NaN === NaN), undefined === undefined
is true, numbers compare by value. -/
def jsStrictEq : JsNum → JsNum → Bool
  | JsNum.undef, JsNum.undef => true
  | JsNum.num a, JsNum.num b => a == b
  | _, _ => false

/-- JavaScript relational comparison a > b: false unless both operands are
proper numbers (comparisons involving NaN or undefined are false). -/
def jsGt : JsNum → JsNum → Bool
  | JsNum.num a, JsNum.num b => b < a
  | _, _ => false

/-- JavaScript relational comparison a < b: false unless both operands are
proper numbers. -/
def jsLt : JsNum → JsNum → Bool
  | JsNum.num a, JsNum.num b => a < b
  | _, _ => false

/-- Numeric value of a list of decimal digit characters. -/
def digitsToNat (l : List Char) : Nat :=
  l.foldl (fun a c => a * 10 + (c.toNat - 48)) 0

/-- Model of JavaScript Number() on the strings that occur here (version
components, which are dot-free and dash-free or garbage): the empty string
converts to 0, a nonempty all-digit string to its value, anything else to
NaN. -/
def jsNumberOf (l : List Char) : JsNum :=
  if l.isEmpty then JsNum.num 0
  else if l.all Char.isDigit then JsNum.num (digitsToNat l)
  else JsNum.nan

/-- Model of JavaScript parseInt() on the strings that occur here: the
value of the longest digit run at the start, NaN if there is none. -/
def jsParseIntOf (l : List Char) : JsNum :=
  let ds := l.takeWhile Char.isDigit
  if ds.isEmpty then JsNum.nan else JsNum.num (digitsToNat ds)

/-- Model of JavaScript String.prototype.split with a single-character
separator: the empty string splits to one empty group, separators at the
ends or doubled produce empty groups. -/
def splitOnC (sep : Char) : List Char → List (List Char)
  | [] => [[]]
  | c :: cs =>
    if c = sep then [] :: splitOnC sep cs
    else
      match splitOnC sep cs with
      | [] => [[c]]
      | g :: gs => (c :: g) :: gs

/-- The part before the first dash: v.split('-')[0] in the source, used by
compareSemver to strip a prerelease suffix. -/
def stripPre (l : List Char) : List Char :=
  (splitOnC '-' l).headD []

/-- String-level wrapper for the prerelease-stripping step of
compareSemver. -/
def stripPrerelease (s : String) : String :=
  String.mk (stripPre s.data)

/-- The numeric version components the source computes with
v.split('-')[0].split('.').map(Number). -/
def semverParts (v : String) : List JsNum :=
  (splitOnC '.' (stripPre v.data)).map jsNumberOf

/-- Component read parts[i] with JavaScript out-of-bounds semantics
(undefined). -/
def partAt (p : List JsNum) (i : Nat) : JsNum :=
  p.getD i JsNum.undef

/-- One iteration of the comparison loop of compareSemver: 1 if
parts1[i] > parts2[i], -1 if parts1[i] < parts2[i], otherwise 0. -/
def cmpNum (x y : JsNum) : Int :=
  if jsGt x y then 1
  else if jsLt x y then -1
  else 0

/-- compareSemver from src/src/shared/utils/validation.ts: strips any
prerelease suffix, then compares the first three dot components
numerically, returning the first nonzero of the three comparisons, else
0. -/
def compareSemver (v1 v2 : String) : Int :=
  let p1 := semverParts v1
  let p2 := semverParts v2
  if cmpNum (partAt p1 0) (partAt p2 0) ≠ 0 then cmpNum (partAt p1 0) (partAt p2 0)
  else if cmpNum (partAt p1 1) (partAt p2 1) ≠ 0 then cmpNum (partAt p1 1) (partAt p2 1)
  else cmpNum (partAt p1 2) (partAt p2 2)

/-- Character class of the optional prerelease part of the semver regex,
namely lowercase letters, digits, dash and dot. -/
def isPreChar (c : Char) : Bool :=
  c.isLower || c.isDigit || c = '-' || c = '.'

/-- isValidSemver from src/src/shared/utils/validation.ts.  The source
tests the regex digits dot digits dot digits with an optional dash plus
nonempty run of prerelease characters; since the dot and the dash are not
digit characters the regex is matched deterministically, which this
recognizer implements left to right. -/
def isValidSemver (s : String) : Bool :=
  let ds0 := s.data.takeWhile Char.isDigit
  let r0 := s.data.dropWhile Char.isDigit
  if ds0.isEmpty then false
  else
    match r0 with
    | '.' :: r1 =>
      let ds1 := r1.takeWhile Char.isDigit
      let r1' := r1.dropWhile Char.isDigit
      if ds1.isEmpty then false
      else
        match r1' with
        | '.' :: r2 =>
          let ds2 := r2.takeWhile Char.isDigit
          let r2' := r2.dropWhile Char.isDigit
          if ds2.isEmpty then false
          else
            match r2' with
            | [] => true
            | '-' :: pre => !pre.isEmpty && pre.all isPreChar
            | _ => false
        | _ => false
    | _ => false

/-- First character class of an extension-id segment: lowercase letter or
digit. -/
def isIdStart (c : Char) : Bool :=
  c.isLower || c.isDigit

/-- Remaining character class of an extension-id segment: lowercase
letter, digit or hyphen. -/
def isIdBody (c : Char) : Bool :=
  isIdStart c || c = '-'

mutual

/-- Scanner for the body of an extension-id segment whose first character
was already consumed; counts the segments completed so far.  Together with
idHead this recognizes the segment-dot structure of the extension-id
regex, which is deterministic because neither segment character class
contains the dot. -/
def idTail : List Char → Nat → Option Nat
  | [], count => some count
  | c :: rest, count =>
    if c = '.' then idHead rest count
    else if isIdBody c then idTail rest count
    else none

/-- Scanner for the start of an extension-id segment. -/
def idHead : List Char → Nat → Option Nat
  | [], _ => none
  | c :: rest, count => if isIdStart c then idTail rest (count + 1) else none

end

/-- isValidExtensionId from src/src/shared/utils/validation.ts.  The
source regex requires a segment, a dot, a segment, and then one or more
further dot-segment groups, i.e. at least three dot-separated segments,
each starting with a lowercase alphanumeric and continuing with lowercase
alphanumerics and hyphens. -/
def isValidExtensionId (id : String) : Bool :=
  match idHead id.data 0 with
  | some n => 3 ≤ n
  | none => false

/-- Wildcard branch of matchesSemverRange: iterate over the range
components; a non-x component must strictly equal the corresponding
version component (an out-of-bounds version component is undefined and
never equals a string). -/
def wildcardOk (rparts vparts : List (List Char)) : Bool :=
  rparts.enum.all fun p =>
    p.2 == ['x'] || vparts.get? p.1 == some p.2

/-- matchesSemverRange from src/src/shared/utils/validation.ts: exact
string equality first, then the wildcard branch whenever the range
contains an x anywhere, then caret, tilde and greater-or-equal, and false
for anything else. -/
def matchesSemverRange (version range : String) : Bool :=
  if range == version then true
  else if range.data.contains 'x' then
    wildcardOk (splitOnC '.' range.data) (splitOnC '.' version.data)
  else
    match range.data with
    | '^' :: base =>
      if compareSemver version (String.mk base) < 0 then false
      else
        jsStrictEq
          (jsParseIntOf ((splitOnC '.' version.data).headD []))
          (jsParseIntOf ((splitOnC '.' base).headD []))
    | '~' :: base =>
      if compareSemver version (String.mk base) < 0 then false
      else
        let bp := (splitOnC '.' base).map jsNumberOf
        let vp := (splitOnC '.' version.data).map jsNumberOf
        jsStrictEq (partAt vp 0) (partAt bp 0) &&
          jsStrictEq (partAt vp 1) (partAt bp 1)
    | '>' :: '=' :: base =>
      decide (0 ≤ compareSemver version (String.mk base))
    | _ => false

/-- Checksum record inside a manifest integrity block: algorithm name and
hex digest of the manifest. -/
structure ChecksumInfo where
  algorithm : String
  manifest : String
deriving DecidableEq, Repr

/-- Integrity block of a manifest. -/
structure Integrity where
  checksum : ChecksumInfo
deriving DecidableEq, Repr

/-- Extension dependency as used by the registry: id, version string and
optional flag. -/
structure Dependency where
  id : String
  version : String
  optional : Bool
deriving DecidableEq, Repr

/-- Manifest metadata block (the fields the core reads). -/
structure Metadata where
  id : String
  name : String
  version : String
deriving DecidableEq, Repr

/-- Manifest requirements block. -/
structure Requirements where
  minAppVersion : String
  maxAppVersion : Option String
  platforms : List String
  dependencies : List Dependency
deriving DecidableEq, Repr

/-- Manifest permissions block; permissions are strings drawn from the
closed permission vocabulary. -/
structure Permissions where
  required : List String
  optional : List String
  restrictedApis : List String
deriving DecidableEq, Repr

/-- Lifecycle hook references of a manifest (script names; execution is
external and has no effect on the modelled state). -/
structure Lifecycle where
  onInstall : Option String
  onEnable : Option String
  onDisable : Option String
  onUninstall : Option String
deriving DecidableEq, Repr

/-- Modelled from the spec: the ExtensionManifest record (its defining
manifest.types.ts is not part of the snapshot; the field set follows the
data-model section of the specification and every read site in the
sources: metadata id/name/version, classification, requirements,
permissions, optional lifecycle hooks and the optional integrity block).
Resource and monitoring blocks are not read by any claimed operation and
are left out of the record. -/
structure ExtensionManifest where
  metadata : Metadata
  type : String
  category : String
  requirements : Requirements
  permissions : Permissions
  lifecycle : Option Lifecycle
  integrity : Option Integrity
deriving DecidableEq, Repr

/-- Validation result value: valid flag, error list and warning list. -/
structure ValidationResult where
  valid : Bool
  errors : List String
  warnings : List String
deriving DecidableEq, Repr

/-- Permission validation value returned by validatePermissions. -/
structure PermissionValidation where
  valid : Bool
  needsUserConsent : Bool
  restrictedPermissions : List String
deriving DecidableEq, Repr

/-- Dependency check value returned by checkDependencies. -/
structure DependencyCheck where
  satisfied : Bool
  missing : List Dependency
deriving DecidableEq, Repr

/-- RESTRICTED_PERMISSIONS from src/src/shared/utils/validation.ts. -/
def RESTRICTED_PERMISSIONS : List String :=
  ["code-execution", "native-module", "file-system-write"]

/-- isCompatibleVersion from src/src/shared/utils/validation.ts: the app
version must be at least minAppVersion, and when a maxAppVersion range is
present (and, per JavaScript truthiness, nonempty) the app version must
match it. -/
def isCompatibleVersion (appVersion : String) (manifest : ExtensionManifest) : Bool :=
  if compareSemver appVersion manifest.requirements.minAppVersion < 0 then false
  else
    match manifest.requirements.maxAppVersion with
    | none => true
    | some maxV => if maxV = "" then true else matchesSemverRange appVersion maxV

/-- validatePermissions from src/src/shared/utils/validation.ts: filters
the required permissions against the restricted list. -/
def validatePermissions (manifest : ExtensionManifest) : PermissionValidation :=
  let restricted := manifest.permissions.required.filter
    (fun perm => RESTRICTED_PERMISSIONS.contains perm)
  { valid := restricted.isEmpty
    needsUserConsent := !manifest.permissions.required.isEmpty
    restrictedPermissions := restricted }

/-- validateManifest from src/src/shared/utils/validation.ts.  The first
layer (ajv validation of manifest.schema.json, compiled at module load)
is passed in as the schemaCheck parameter because the schema file is not
part of the snapshot; the remaining layers are the semantic checks and
the permission warning exactly as in the source, and the result is valid
precisely when the error list is empty. -/
def validateManifest (schemaCheck : ExtensionManifest → ValidationResult)
    (manifest : ExtensionManifest) (appVersion : String) : ValidationResult :=
  let schemaValidation := schemaCheck manifest
  let errs :=
    (if schemaValidation.valid then [] else schemaValidation.errors) ++
    (if isValidExtensionId manifest.metadata.id then []
     else ["Invalid extension ID format"]) ++
    (if isValidSemver manifest.metadata.version then []
     else ["Invalid version format"]) ++
    (if isCompatibleVersion appVersion manifest then []
     else ["Incompatible app version. Requires " ++
       manifest.requirements.minAppVersion ++ "+"])
  let permValidation := validatePermissions manifest
  let warns :=
    if permValidation.valid then []
    else ["Extension requests restricted permissions: " ++
      String.intercalate ", " permValidation.restrictedPermissions]
  { valid := errs.isEmpty, errors := errs, warnings := warns }

/-- Lifecycle status of a registered extension. -/
inductive ExtensionStatus where
  | installed
  | enabled
  | disabled
  | degraded
  | error
deriving DecidableEq, Repr

/-- Runtime extension record owned by the registry; Date values are
modelled as natural-number timestamps. -/
structure Extension where
  id : String
  manifest : ExtensionManifest
  status : ExtensionStatus
  installPath : String
  installedAt : Nat
  enabledAt : Option Nat
  error : Option String
deriving DecidableEq, Repr

/-- Association-list lookup modelling Map.prototype.get. -/
def alGet {α : Type} (m : List (String × α)) (k : String) : Option α :=
  (m.find? (fun p => p.1 = k)).map (fun p => p.2)

/-- Association-list update modelling Map.prototype.set: replace the
value under an existing key, otherwise append a new entry. -/
def alSet {α : Type} (m : List (String × α)) (k : String) (v : α) : List (String × α) :=
  if m.any (fun p => p.1 = k) then
    m.map (fun p => if p.1 = k then (k, v) else p)
  else m ++ [(k, v)]

/-- Association-list removal modelling Map.prototype.delete. -/
def alDelete {α : Type} (m : List (String × α)) (k : String) : List (String × α) :=
  m.filter (fun p => p.1 ≠ k)

/-- The extensions map of the registry, keyed by extension id. -/
abbrev Registry : Type := List (String × Extension)

/-- Lookup in the extensions map (ExtensionRegistry.getExtension). -/
def regGet (reg : Registry) (id : String) : Option Extension :=
  alGet reg id

/-- The hard-coded appVersion field of ExtensionRegistry. -/
def registryAppVersion : String := "1.0.0"

/-- checkDependencies from ExtensionRegistry.ts: a non-optional dependency
is missing when no extension with its id is registered, or when the
installed extension's version compares below the dependency's version
string (the source compares against the raw version string with
compareSemver). -/
def checkDependencies (reg : Registry) (manifest : ExtensionManifest) : DependencyCheck :=
  let missing :=
    (manifest.requirements.dependencies.filter (fun dep => !dep.optional)).filter
      (fun dep =>
        match regGet reg dep.id with
        | none => true
        | some installed =>
          compareSemver installed.manifest.metadata.version dep.version < 0)
  { satisfied := missing.isEmpty, missing := missing }

/-- registerExtension from ExtensionRegistry.ts as a state transformer:
validate the manifest, then check dependencies, and only then store the
extension keyed by its id; either failure raises (Except.error with the
source's message) and the returned map is the method's map at the throw
point. -/
def registerExtension (schemaCheck : ExtensionManifest → ValidationResult)
    (reg : Registry) (ext : Extension) : Except String Unit × Registry :=
  let validation := validateManifest schemaCheck ext.manifest registryAppVersion
  if !validation.valid then
    (Except.error ("Invalid extension: " ++ String.intercalate ", " validation.errors), reg)
  else
    let depCheck := checkDependencies reg ext.manifest
    if !depCheck.satisfied then
      (Except.error ("Missing dependencies: " ++
        String.intercalate ", " (depCheck.missing.map (fun d => d.id))), reg)
    else
      (Except.ok (), alSet reg ext.id ext)

/-- enable from ExtensionRegistry.ts as a state transformer taking the
clock as a parameter: unknown id raises, an already enabled extension is
left untouched, otherwise the onEnable hook is invoked (log-only, no
state effect) and the status becomes enabled with enabledAt stamped. -/
def enable (reg : Registry) (extensionId : String) (now : Nat) :
    Except String Unit × Registry :=
  match regGet reg extensionId with
  | none => (Except.error ("Extension not found: " ++ extensionId), reg)
  | some ext =>
    if ext.status = ExtensionStatus.enabled then (Except.ok (), reg)
    else
      (Except.ok (), alSet reg extensionId
        { ext with status := ExtensionStatus.enabled, enabledAt := some now })

/-- disable from ExtensionRegistry.ts as a state transformer: unknown id
raises, an already disabled extension is left untouched, otherwise the
onDisable hook is invoked (log-only) and the status becomes disabled. -/
def disable (reg : Registry) (extensionId : String) :
    Except String Unit × Registry :=
  match regGet reg extensionId with
  | none => (Except.error ("Extension not found: " ++ extensionId), reg)
  | some ext =>
    if ext.status = ExtensionStatus.disabled then (Except.ok (), reg)
    else
      (Except.ok (), alSet reg extensionId
        { ext with status := ExtensionStatus.disabled })

/-- uninstall from ExtensionRegistry.ts: unknown id raises; an enabled
extension is disabled first (hook ordering), then the onUninstall hook is
invoked (log-only) and the entry is deleted. -/
def uninstall (reg : Registry) (extensionId : String) :
    Except String Unit × Registry :=
  match regGet reg extensionId with
  | none => (Except.error ("Extension not found: " ++ extensionId), reg)
  | some ext =>
    let reg1 := if ext.status = ExtensionStatus.enabled then (disable reg extensionId).2 else reg
    (Except.ok (), alDelete reg1 extensionId)

/-- Status of a registered extension, when present. -/
def statusOf (reg : Registry) (id : String) : Option ExtensionStatus :=
  (regGet reg id).map (fun e => e.status)

/-- Byte payload standing for a Blob. -/
abbrev Blob : Type := List Nat

/-- Cache entry of the cloud resource manager: payload and the timestamp
at which it was stored. -/
structure CacheEntry where
  data : Blob
  timestamp : Nat
deriving DecidableEq, Repr

/-- Per-URL circuit breaker state. -/
structure CircuitBreakerState where
  failures : Nat
  lastFailure : Nat
  resetTimeout : Nat
deriving DecidableEq, Repr

/-- Fallback policy of loadResource. -/
inductive Fallback where
  | placeholder
  | cache
  | none
deriving DecidableEq, Repr

/-- Options record of loadResource; absent fields take the source's
defaults (cache true, TTL 24 hours in milliseconds, fallback cache)
inside loadResource. -/
structure LoadResourceOptions where
  cache : Option Bool
  cacheTTL : Option Nat
  fallback : Option Fallback
deriving DecidableEq, Repr

/-- State of the cloud resource manager: the cache map and the circuit
breaker map, both keyed by URL. -/
structure CRMState where
  cache : List (String × CacheEntry)
  circuit : List (String × CircuitBreakerState)
deriving DecidableEq, Repr

/-- The 1x1 transparent PNG returned by getPlaceholder in
CloudResourceManager.ts. -/
def placeholderBlob : Blob :=
  [0x89, 0x50, 0x4e, 0x47, 0x0d, 0x0a, 0x1a, 0x0a, 0x00, 0x00, 0x00, 0x0d,
   0x49, 0x48, 0x44, 0x52, 0x00, 0x00, 0x00, 0x01, 0x00, 0x00, 0x00, 0x01,
   0x08, 0x06, 0x00, 0x00, 0x00, 0x1f, 0x15, 0xc4, 0x89, 0x00, 0x00, 0x00,
   0x0a, 0x49, 0x44, 0x41, 0x54, 0x78, 0x9c, 0x63, 0x00, 0x01, 0x00, 0x00,
   0x05, 0x00, 0x01, 0x0d, 0x0a, 0x2d, 0xb4, 0x00, 0x00, 0x00, 0x00, 0x49,
   0x45, 0x4e, 0x44, 0xae, 0x42, 0x60, 0x82]

/-- getFromCache from CloudResourceManager.ts: a missing entry yields
none; an entry older than the TTL is deleted and yields none (the age
comparison now - timestamp > ttl is written in the overflow-free form
timestamp + ttl < now); otherwise the payload is returned. -/
def getFromCache (st : CRMState) (url : String) (ttl now : Nat) :
    Option Blob × CRMState :=
  match alGet st.cache url with
  | Option.none => (Option.none, st)
  | some entry =>
    if entry.timestamp + ttl < now then
      (Option.none, { st with cache := alDelete st.cache url })
    else (some entry.data, st)

/-- isCircuitOpen from CloudResourceManager.ts: no state means closed; a
state whose last failure is more than resetTimeout ago is deleted and the
circuit reports closed (timed self-heal); otherwise the circuit is open
precisely when the failure count has reached the threshold 5. -/
def isCircuitOpen (st : CRMState) (url : String) (now : Nat) :
    Bool × CRMState :=
  match alGet st.circuit url with
  | Option.none => (false, st)
  | some s =>
    if s.lastFailure + s.resetTimeout < now then
      (false, { st with circuit := alDelete st.circuit url })
    else (decide (5 ≤ s.failures), st)

/-- incrementCircuitBreaker from CloudResourceManager.ts: bump the
failure count (starting a fresh state with the default 60000 ms reset
timeout) and stamp the failure time. -/
def incrementCircuitBreaker (st : CRMState) (url : String) (now : Nat) : CRMState :=
  let s := (alGet st.circuit url).getD
    ({ failures := 0, lastFailure := 0, resetTimeout := 60000 })
  let s' := { s with failures := s.failures + 1, lastFailure := now }
  { st with circuit := alSet st.circuit url s' }

/-- resetCircuitBreaker from CloudResourceManager.ts: delete the per-URL
state on a successful load. -/
def resetCircuitBreaker (st : CRMState) (url : String) : CRMState :=
  { st with circuit := alDelete st.circuit url }

/-- addToCache from CloudResourceManager.ts. -/
def addToCache (st : CRMState) (url : String) (data : Blob) (now : Nat) : CRMState :=
  { st with cache := alSet st.cache url { data := data, timestamp := now } }

/-- handleFallback from CloudResourceManager.ts: with policy cache the
cache map is read directly (no TTL check) and a hit is returned; with
policy placeholder the fixed pixel is returned; otherwise (including a
cache miss under policy cache) the failure is raised. -/
def handleFallback (st : CRMState) (url : String) (fallback : Fallback) :
    Except String Blob :=
  match fallback with
  | Fallback.cache =>
    match alGet st.cache url with
    | some cached => Except.ok cached.data
    | Option.none => Except.error ("Failed to load resource: " ++ url)
  | Fallback.placeholder => Except.ok placeholderBlob
  | Fallback.none => Except.error ("Failed to load resource: " ++ url)

/-- Step 1 of loadResource: the cache read, performed only when the cache
option (default true) is set. -/
def cacheStep (st : CRMState) (url : String) (opts : LoadResourceOptions)
    (now : Nat) : Option Blob × CRMState :=
  if opts.cache.getD true then
    getFromCache st url (opts.cacheTTL.getD 86400000) now
  else (Option.none, st)

/-- loadResource from CloudResourceManager.ts as a state transformer.
The clock and the outcome of the (bounded, 10 s) network fetch are passed
in as parameters: fetchOutcome some payload is a successful (2xx)
response body, none is any fetch failure (non-2xx, timeout, network
error).  The third component of the result records whether a network
fetch was performed on this call.  The steps mirror the source: cache
read, circuit check (going straight to fallback when open), then the
fetch with cache store and circuit reset on success or circuit increment
and fallback on failure. -/
def loadResource (now : Nat) (fetchOutcome : Option Blob) (url : String)
    (opts : LoadResourceOptions) (st : CRMState) :
    Except String Blob × CRMState × Bool :=
  match cacheStep st url opts now with
  | (some data, st1) => (Except.ok data, st1, false)
  | (Option.none, st1) =>
    match isCircuitOpen st1 url now with
    | (true, st2) => (handleFallback st2 url (opts.fallback.getD Fallback.cache), st2, false)
    | (false, st2) =>
      match fetchOutcome with
      | some blob =>
        let st3 := if opts.cache.getD true then addToCache st2 url blob now else st2
        (Except.ok blob, resetCircuitBreaker st3 url, true)
      | Option.none =>
        let st3 := incrementCircuitBreaker st2 url now
        (handleFallback st3 url (opts.fallback.getD Fallback.cache), st3, true)

/-- Lesson template as the package builder reads it: id and display
metadata (remaining template content does not influence any claimed
operation and is abstracted as an opaque payload string). -/
structure LessonTemplate where
  id : String
  name : String
  description : String
  payload : String
deriving DecidableEq, Repr

/-- Script member of a package. -/
structure PackageScript where
  name : String
  content : String
deriving DecidableEq, Repr

/-- Documentation members of a package. -/
structure PackageDocumentation where
  readme : Option String
  changelog : Option String
  license : Option String
deriving DecidableEq, Repr

/-- PackageData from the package builder: manifest plus optional
templates, scripts and documentation. -/
structure PackageData where
  manifest : ExtensionManifest
  templates : List LessonTemplate
  scripts : List PackageScript
  documentation : Option PackageDocumentation
deriving DecidableEq, Repr

/-- Serialization of an optional string field. -/
def encOpt (o : Option String) : String :=
  match o with
  | Option.none => "_"
  | some s => "s:" ++ s

/-- JSON.stringify model for the manifest fields other than integrity,
in the insertion order the generator creates them. -/
def stringifyCore (m : ExtensionManifest) : String :=
  "metadata:(" ++ m.metadata.id ++ "," ++ m.metadata.name ++ "," ++
    m.metadata.version ++ ")" ++
  ",type:" ++ m.type ++
  ",category:" ++ m.category ++
  ",requirements:(" ++ m.requirements.minAppVersion ++ "," ++
    encOpt m.requirements.maxAppVersion ++ "," ++
    String.intercalate ";" m.requirements.platforms ++ "," ++
    String.intercalate ";" (m.requirements.dependencies.map
      (fun d => d.id ++ "@" ++ d.version ++ "@" ++ (if d.optional then "o" else "r"))) ++ ")" ++
  ",permissions:(" ++ String.intercalate ";" m.permissions.required ++ "," ++
    String.intercalate ";" m.permissions.optional ++ "," ++
    String.intercalate ";" m.permissions.restrictedApis ++ ")"

/-- JSON.stringify model for a whole manifest: the integrity field was
assigned last by the generator, so when present it serializes after the
other fields; when absent (deleted) it contributes nothing. -/
def stringifyManifest (m : ExtensionManifest) : String :=
  stringifyCore m ++
  (match m.integrity with
   | Option.none => ""
   | some i => ",integrity:(" ++ i.checksum.algorithm ++ "," ++
       i.checksum.manifest ++ ")")

/-- Model of the SHA-256 hex digest from the crypto utilities: the hash
is abstracted as an injective function of the hashed text (an idealized
collision-free digest). -/
def sha256Hex (s : String) : String :=
  "sha256(" ++ s ++ ")"

/-- Model of the SHA-512 hex digest, likewise idealized as injective. -/
def sha512Hex (s : String) : String :=
  "sha512(" ++ s ++ ")"

/-- computeChecksum from the crypto utilities: dispatch on the algorithm
name, defaulting to SHA-256. -/
def computeChecksum (s : String) (algorithm : String) : String :=
  if algorithm = "sha512" then sha512Hex s else sha256Hex s

/-- ManifestGenerator.generateIntegrity: serialize a copy of the manifest
with the integrity field deleted, hash it with SHA-256, and return the
integrity block recording algorithm and digest. -/
def generateIntegrity (m : ExtensionManifest) : Integrity :=
  let manifestCopy := { m with integrity := Option.none }
  { checksum :=
    { algorithm := "sha256"
      manifest := computeChecksum (stringifyManifest manifestCopy) "sha256" } }

/-- The integrity stamping step shared by ManifestGenerator.createManifest
and updateManifest: both end by assigning generateIntegrity of the
assembled manifest to its integrity field. -/
def stampIntegrity (m : ExtensionManifest) : ExtensionManifest :=
  { m with integrity := some (generateIntegrity m) }

/-- Archive model for a built .ldip package: the members the builder
writes.  The manifest member stands for the parsed content of
manifest.json; building writes JSON.stringify of the manifest and
extraction parses it back, a round trip that is the identity on the data
model. -/
structure Archive where
  manifestEntry : ExtensionManifest
  templateEntries : List LessonTemplate
  scriptEntries : List PackageScript
  docEntries : Option PackageDocumentation
deriving DecidableEq, Repr

/-- PackageBuilder.buildPackage: write manifest.json and the optional
template, script and documentation members into the archive. -/
def buildPackage (data : PackageData) : Archive :=
  { manifestEntry := data.manifest
    templateEntries := data.templates
    scriptEntries := data.scripts
    docEntries := data.documentation }

/-- PackageBuilder.extractPackage: read the members back into a
PackageData. -/
def extractPackage (a : Archive) : PackageData :=
  { manifest := a.manifestEntry
    templates := a.templateEntries
    scripts := a.scriptEntries
    documentation := a.docEntries }

/-- Package validation result: valid flag and error list. -/
structure PackageValidation where
  valid : Bool
  errors : List String
deriving DecidableEq, Repr

/-- PackageBuilder.validatePackage: extract, then recompute the SHA-256
checksum over JSON.stringify(data.manifest) — the whole extracted
manifest, integrity field included — and compare it with the stored
integrity checksum (a missing integrity block never equals the computed
digest); a mismatch is reported as tampering. -/
def validatePackage (a : Archive) : PackageValidation :=
  let data := extractPackage a
  let manifestJson := stringifyManifest data.manifest
  let computedChecksum := computeChecksum manifestJson "sha256"
  let stored :=
    match data.manifest.integrity with
    | Option.none => Option.none
    | some i => some i.checksum.manifest
  let errs :=
    if stored = some computedChecksum then []
    else ["Manifest checksum mismatch - possible tampering"]
  { valid := errs.isEmpty, errors := errs }

/-- Claim-side extension-id predicate, written from the claim's words: at
least two dot-separated segments of lowercase alphanumerics and hyphens,
with no leading, trailing or doubled dots (equivalently, no empty
segment) and no uppercase letters. -/
def claimValidId (id : String) : Bool :=
  let segs := splitOnC '.' id.data
  2 ≤ segs.length && segs.all (fun s => !s.isEmpty && s.all isIdBody)

/-- Segment shape actually enforced by the extension-id regex: a
lowercase alphanumeric first character followed by lowercase
alphanumerics and hyphens. -/
def isStrictSegment (l : List Char) : Bool :=
  match l with
  | [] => false
  | c :: cs => isIdStart c && cs.all isIdBody

/-- Amended extension-id predicate: at least three dot-separated
segments, each starting with a lowercase alphanumeric and continuing
with lowercase alphanumerics and hyphens. -/
def amendedValidId (id : String) : Bool :=
  let segs := splitOnC '.' id.data
  3 ≤ segs.length && segs.all isStrictSegment

/-- Schema layer that accepts every manifest, standing for an ajv run
whose result is valid (used to instantiate theorems quantified over the
schema layer). -/
def schemaOk : ExtensionManifest → ValidationResult :=
  fun _ => { valid := true, errors := [], warnings := [] }

/-- A concrete well-formed manifest used by witnesses and
counterexamples. -/
def manifestBase : ExtensionManifest :=
  { metadata := { id := "com.example.pack", name := "Example Pack", version := "1.0.0" }
    type := "template-pack"
    category := "education"
    requirements :=
      { minAppVersion := "1.0.0", maxAppVersion := Option.none
        platforms := [], dependencies := [] }
    permissions := { required := [], optional := [], restrictedApis := [] }
    lifecycle := Option.none
    integrity := Option.none }

/-- A registered extension sitting in the error status. -/
def errorExt : Extension :=
  { id := "com.example.pack", manifest := manifestBase
    status := ExtensionStatus.error, installPath := "/ext/pack"
    installedAt := 0, enabledAt := Option.none, error := some "runtime fault" }

/-- One-entry registry holding the error-status extension. -/
def errorReg : Registry := [("com.example.pack", errorExt)]

/-- A concrete manifest whose required permissions overlap the restricted
set. -/
def restrictedManifest : ExtensionManifest :=
  { manifestBase with permissions :=
    { required := ["document-read", "code-execution"], optional := [], restrictedApis := [] } }

/-- A concrete extension whose manifest has an invalid id, used to
exercise registration failure. -/
def badIdExt : Extension :=
  { id := "bad", manifest := { manifestBase with metadata :=
      { id := "bad", name := "Bad", version := "1.0.0" } }
    status := ExtensionStatus.installed, installPath := "/ext/bad"
    installedAt := 0, enabledAt := Option.none, error := Option.none }

/-- A concrete extension declaring one required dependency on an
unregistered id. -/
def depExt : Extension :=
  { id := "com.example.dependent", manifest :=
    { manifestBase with
      metadata := { id := "com.example.dependent", name := "Dependent", version := "1.0.0" }
      requirements :=
        { minAppVersion := "1.0.0", maxAppVersion := Option.none, platforms := []
          dependencies := [{ id := "com.example.base", version := "1.0.0", optional := false }] } }
    status := ExtensionStatus.installed, installPath := "/ext/dep"
    installedAt := 0, enabledAt := Option.none, error := Option.none }

/-- The concrete required dependency of depExt. -/
def depD : Dependency := { id := "com.example.base", version := "1.0.0", optional := false }

/-- The stamped concrete manifest: manifestBase with the integrity block
generateIntegrity computes for it, exactly what createManifest attaches. -/
def stampedManifest : ExtensionManifest := stampIntegrity manifestBase

/-- Concrete package data around the stamped manifest. -/
def stampedPackage : PackageData :=
  { manifest := stampedManifest, templates := [], scripts := [], documentation := Option.none }

/-- URL used in the concrete circuit-breaker scenario. -/
def cbUrl : String := "https://cdn.example/res.png"

/-- Options used in the concrete circuit-breaker scenario: defaults for
cache and TTL, placeholder fallback. -/
def cbOpts : LoadResourceOptions :=
  { cache := Option.none, cacheTTL := Option.none, fallback := some Fallback.placeholder }

/-- State of the manager after one failed fetch of cbUrl at time t. -/
def failStep (st : CRMState) (t : Nat) : CRMState :=
  (loadResource t Option.none cbUrl cbOpts st).2.1

/-- State of the manager after five consecutive failed fetches of cbUrl
at times 0 through 4. -/
def st5 : CRMState :=
  failStep (failStep (failStep (failStep (failStep ⟨[], []⟩ 0) 1) 2) 3) 4


example : compareSemver "1.0.0" "2.0.0" = -1 := by decide
example : compareSemver "1.2.0" "1.1.0" = 1 := by decide
example : compareSemver "1.0.0-alpha" "1.0.0-beta" = 0 := by decide
example : isValidSemver "1.0.0" = true := by decide
example : isValidSemver "1.0.0-beta.1" = true := by decide
example : isValidSemver "1.0" = false := by decide
example : isValidSemver "1.0.0-" = false := by decide
example : isValidSemver "v1.0.0" = false := by decide
example : isValidExtensionId "com.example.myextension" = true := by decide
example : isValidExtensionId "com.example" = false := by decide
example : isValidExtensionId "Com.Example.Test" = false := by decide
example : isValidExtensionId "com..example.test" = false := by decide
example : isValidExtensionId ".com.example.test" = false := by decide
example : isValidExtensionId "com.example." = false := by decide
example : matchesSemverRange "1.5.3" "1.x.x" = true := by decide
example : matchesSemverRange "2.0.0" "1.x.x" = false := by decide
example : matchesSemverRange "1.6.0" "1.5.x" = false := by decide
example : matchesSemverRange "1.5.0" "^1.0.0" = true := by decide
example : matchesSemverRange "2.0.0" "^1.0.0" = false := by decide
example : matchesSemverRange "0.9.0" "^1.0.0" = false := by decide
example : matchesSemverRange "1.0.5" "~1.0.0" = true := by decide
example : matchesSemverRange "1.1.0" "~1.0.0" = false := by decide
example : matchesSemverRange "1.0.0" ">=1.0.0" = true := by decide
example : matchesSemverRange "0.9.0" ">=1.0.0" = false := by decide
example : matchesSemverRange "1.0.0" "1.0.1" = false := by decide

/-- One comparison step is antisymmetric: swapping the operands negates
the result, for every pair of modelled JavaScript values. -/
theorem cmpNum_antisym (x y : JsNum) : cmpNum x y = -cmpNum y x := by
  cases x <;> cases y <;> simp [cmpNum, jsGt, jsLt] <;> split_ifs <;> omega

/-- One comparison step on equal operands yields 0. -/
theorem cmpNum_self (x : JsNum) : cmpNum x x = 0 := by
  cases x <;> simp [cmpNum, jsGt, jsLt]

/-- One comparison step only produces -1, 0 or 1. -/
theorem cmpNum_range (x y : JsNum) :
    cmpNum x y = -1 ∨ cmpNum x y = 0 ∨ cmpNum x y = 1 := by
  unfold cmpNum
  split_ifs <;> simp

/-- compareSemver is antisymmetric on all strings. -/
theorem compareSemver_antisym (a b : String) :
    compareSemver a b = -compareSemver b a := by
  simp only [compareSemver]
  rw [cmpNum_antisym (partAt (semverParts a) 0) (partAt (semverParts b) 0),
    cmpNum_antisym (partAt (semverParts a) 1) (partAt (semverParts b) 1),
    cmpNum_antisym (partAt (semverParts a) 2) (partAt (semverParts b) 2)]
  generalize cmpNum (partAt (semverParts b) 0) (partAt (semverParts a) 0) = c0
  generalize cmpNum (partAt (semverParts b) 1) (partAt (semverParts a) 1) = c1
  generalize cmpNum (partAt (semverParts b) 2) (partAt (semverParts a) 2) = c2
  split_ifs <;> omega

/-- compareSemver of a string with itself is 0. -/
theorem compareSemver_self (a : String) : compareSemver a a = 0 := by
  simp [compareSemver, cmpNum_self]

/-- compareSemver only returns -1, 0 or 1. -/
theorem compareSemver_range (a b : String) :
    compareSemver a b = -1 ∨ compareSemver a b = 0 ∨ compareSemver a b = 1 := by
  simp only [compareSemver]
  split_ifs <;> apply cmpNum_range

/-- The split of a list is never the empty list of groups. -/
theorem splitOnC_ne_nil (sep : Char) (l : List Char) : splitOnC sep l ≠ [] := by
  induction l with
  | nil => simp [splitOnC]
  | cons c cs ih =>
    simp only [splitOnC]
    split
    · simp
    · split <;> simp

/-- The first group of a split never contains the separator. -/
theorem not_mem_headD_splitOnC (sep : Char) (l : List Char) :
    sep ∉ (splitOnC sep l).headD [] := by
  induction l with
  | nil => simp [splitOnC]
  | cons c cs ih =>
    simp only [splitOnC]
    split
    · simp
    · rename_i hne
      cases hsplit : splitOnC sep cs with
      | nil => exact absurd hsplit (splitOnC_ne_nil sep cs)
      | cons g gs =>
        rw [hsplit] at ih
        simp only [List.headD_cons] at ih ⊢
        simp only [List.mem_cons, not_or]
        exact ⟨fun h => hne h.symm, ih⟩

/-- Splitting a list that does not contain the separator yields that one
group. -/
theorem splitOnC_of_not_mem (sep : Char) (l : List Char) (h : sep ∉ l) :
    splitOnC sep l = [l] := by
  induction l with
  | nil => simp [splitOnC]
  | cons c cs ih =>
    simp only [List.mem_cons, not_or] at h
    simp only [splitOnC]
    rw [if_neg (fun hc => h.1 hc.symm), ih h.2]

/-- Stripping the prerelease part is idempotent. -/
theorem stripPre_idem (l : List Char) : stripPre (stripPre l) = stripPre l := by
  unfold stripPre
  rw [splitOnC_of_not_mem '-' _ (not_mem_headD_splitOnC '-' l)]
  rfl

/-- The parsed components of a version are unchanged by the
prerelease-stripping wrapper. -/
theorem semverParts_stripPrerelease (s : String) :
    semverParts (stripPrerelease s) = semverParts s := by
  simp [semverParts, stripPrerelease, stripPre_idem]

/-- compareSemver only looks at the prerelease-stripped core of its
arguments. -/
theorem compareSemver_strip (a b : String) :
    compareSemver a b = compareSemver (stripPrerelease a) (stripPrerelease b) := by
  simp only [compareSemver, semverParts_stripPrerelease]

/-- The split of any list is nonempty, in existential form. -/
theorem splitOnC_exists (sep : Char) (l : List Char) :
    ∃ g gs, splitOnC sep l = g :: gs := by
  cases h : splitOnC sep l with
  | nil => exact absurd h (splitOnC_ne_nil sep l)
  | cons g gs => exact ⟨g, gs, rfl⟩

/-- The segment scanners agree with the dot-split view of the input: the
tail scanner accepts when the current group finishes with body characters
and all later groups are strict segments, counting one segment per later
group, and the head scanner accepts when every group is a strict segment,
counting all of them. -/
theorem idScan_eq (n : Nat) : ∀ (r : List Char), r.length ≤ n →
    (∀ k, idTail r k =
      (match splitOnC '.' r with
       | [] => Option.none
       | g :: gs =>
         if g.all isIdBody && gs.all isStrictSegment then some (k + gs.length)
         else Option.none)) ∧
    (∀ k, idHead r k =
      (if (splitOnC '.' r).all isStrictSegment
       then some (k + (splitOnC '.' r).length) else Option.none)) := by
  induction n with
  | zero =>
    intro r hr
    have hnil : r = [] := List.length_eq_zero.mp (Nat.le_zero.mp hr)
    subst hnil
    exact ⟨fun k => by simp [idTail, splitOnC],
      fun k => by simp [idHead, splitOnC, isStrictSegment]⟩
  | succ n ih =>
    intro r hr
    cases r with
    | nil =>
      exact ⟨fun k => by simp [idTail, splitOnC],
        fun k => by simp [idHead, splitOnC, isStrictSegment]⟩
    | cons c cs =>
      have hcs : cs.length ≤ n := by
        simpa using Nat.succ_le_succ_iff.mp (by simpa using hr)
      obtain ⟨ihTail, ihHead⟩ := ih cs hcs
      obtain ⟨g, gs, hgs⟩ := splitOnC_exists '.' cs
      constructor
      · intro k
        by_cases hc : c = '.'
        · subst hc
          have hsp : splitOnC '.' ('.' :: cs) = [] :: splitOnC '.' cs := by
            simp [splitOnC]
          rw [show idTail ('.' :: cs) k = idHead cs k from by simp [idTail]]
          rw [ihHead k, hsp]
          simp
        · have hsp : splitOnC '.' (c :: cs) = (c :: g) :: gs := by
            simp [splitOnC, hc, hgs]
          rw [show idTail (c :: cs) k =
              (if isIdBody c then idTail cs k else Option.none) from by
            simp [idTail, hc]]
          rw [hsp]
          by_cases hb : isIdBody c
          · rw [if_pos hb, ihTail k, hgs]
            simp [hb]
          · simp [hb]
      · intro k
        rw [show idHead (c :: cs) k =
            (if isIdStart c then idTail cs (k + 1) else Option.none) from by
          simp [idHead]]
        by_cases hs : isIdStart c
        · have hc : c ≠ '.' := by
            intro h
            subst h
            exact absurd hs (by decide)
          have hsp : splitOnC '.' (c :: cs) = (c :: g) :: gs := by
            simp [splitOnC, hc, hgs]
          rw [if_pos hs, ihTail (k + 1), hgs, hsp]
          simp only [List.all_cons, isStrictSegment, hs, Bool.true_and]
          split_ifs with h1 h2 h2 <;> simp_all <;> omega
        · rw [if_neg hs]
          by_cases hc : c = '.'
          · subst hc
            have hsp : splitOnC '.' ('.' :: cs) = [] :: splitOnC '.' cs := by
              simp [splitOnC]
            rw [hsp]
            simp [isStrictSegment]
          · have hsp : splitOnC '.' (c :: cs) = (c :: g) :: gs := by
              simp [splitOnC, hc, hgs]
            rw [hsp]
            simp [isStrictSegment, hs]

/-- Updating a key and reading it back yields the new value (replacement
branch). -/
theorem alGet_map_replace {α : Type} (m : List (String × α)) (k : String) (v : α)
    (h : m.any (fun p => p.1 = k) = true) :
    alGet (m.map (fun p => if p.1 = k then (k, v) else p)) k = some v := by
  induction m with
  | nil => simp at h
  | cons p ps ih =>
    by_cases hp : p.1 = k
    · simp [alGet, List.find?, hp]
    · simp only [List.any_cons, Bool.or_eq_true, decide_eq_true_eq] at h
      rcases h with h | h
      · exact absurd h hp
      · simp only [List.map_cons, if_neg hp]
        simp only [alGet, List.find?] at ih ⊢
        rw [show (decide (p.1 = k)) = false from decide_eq_false hp]
        exact ih (by simpa using h)

/-- Appending a fresh key and reading it yields the appended value. -/
theorem alGet_append_fresh {α : Type} (m : List (String × α)) (k : String) (v : α)
    (h : m.any (fun p => p.1 = k) = false) :
    alGet (m ++ [(k, v)]) k = some v := by
  induction m with
  | nil => simp [alGet, List.find?]
  | cons p ps ih =>
    simp only [List.any_cons, Bool.or_eq_false_iff] at h
    simp only [List.cons_append, alGet, List.find?] at ih ⊢
    rw [show (decide (p.1 = k)) = false from by simpa using h.1]
    exact ih h.2

/-- Map.set followed by Map.get on the same key returns the stored
value. -/
theorem alGet_alSet_self {α : Type} (m : List (String × α)) (k : String) (v : α) :
    alGet (alSet m k v) k = some v := by
  unfold alSet
  by_cases h : m.any (fun p => p.1 = k)
  · rw [if_pos h]
    exact alGet_map_replace m k v h
  · rw [if_neg h]
    exact alGet_append_fresh m k v (by rwa [Bool.not_eq_true] at h)

/-- Map.delete followed by Map.get on the same key returns nothing. -/
theorem alGet_alDelete_self {α : Type} (m : List (String × α)) (k : String) :
    alGet (alDelete m k) k = Option.none := by
  unfold alGet alDelete
  rw [Option.map_eq_none']
  rw [List.find?_eq_none]
  intro p hp
  have := List.of_mem_filter hp
  simpa using this

/-- Joining a one-element list with a separator yields that element. -/
theorem intercalate_singleton (sep a : String) :
    String.intercalate sep [a] = a := by
  simp [String.intercalate, String.intercalate.go]

/-- The circuit check never touches the cache map. -/
theorem isCircuitOpen_cache (st : CRMState) (url : String) (now : Nat) :
    ((isCircuitOpen st url now).2).cache = st.cache := by
  unfold isCircuitOpen
  cases alGet st.circuit url with
  | none => rfl
  | some s =>
    simp only
    split_ifs <;> rfl

/-- Incrementing the circuit breaker never touches the cache map. -/
theorem incrementCircuitBreaker_cache (st : CRMState) (url : String) (now : Nat) :
    (incrementCircuitBreaker st url now).cache = st.cache := by
  unfold incrementCircuitBreaker
  rfl

/-- C5: for all valid semver strings a and b, compareSemver(a,b) equals
-compareSemver(b,a) and compareSemver(a,a) is 0; the comparison strips
any prerelease suffix (so two versions differing only in prerelease
compare equal) and returns -1, 0 or 1. -/
theorem c5_compareSemver_algebra (a b : String)
    (ha : isValidSemver a = true) (hb : isValidSemver b = true) :
    compareSemver a b = -compareSemver b a ∧
    compareSemver a a = 0 ∧
    compareSemver a b = compareSemver (stripPrerelease a) (stripPrerelease b) ∧
    (compareSemver a b = -1 ∨ compareSemver a b = 0 ∨ compareSemver a b = 1) :=
  ⟨compareSemver_antisym a b, compareSemver_self a, compareSemver_strip a b,
    compareSemver_range a b⟩

/-- Witness for C5 at the valid versions 1.4.7 and 2.0.0-alpha. -/
theorem c5_compareSemver_algebra_witness :
    (isValidSemver "1.4.7" = true ∧ isValidSemver "2.0.0-alpha" = true) ∧
    compareSemver "1.4.7" "2.0.0-alpha" = -compareSemver "2.0.0-alpha" "1.4.7" :=
  ⟨⟨by decide, by decide⟩,
    (c5_compareSemver_algebra "1.4.7" "2.0.0-alpha" (by decide) (by decide)).1⟩

/-- C2 counterexample: the string com.example satisfies the claim's
criterion (two dot-separated lowercase-alphanumeric-hyphen segments, no
leading, trailing or doubled dots, no uppercase), yet isValidExtensionId
returns false on it, because the source regex demands at least three
segments. -/
theorem c2_counterexample :
    claimValidId "com.example" = true ∧
    isValidExtensionId "com.example" = false := by
  constructor
  · decide
  · decide

/-- C2 amended: isValidExtensionId(id) returns true if and only if id
consists of at least three dot-separated segments, each a lowercase
alphanumeric followed by lowercase alphanumerics and hyphens, with no
leading, trailing or doubled dots and no uppercase letters. -/
theorem c2_extensionId_amended (id : String) :
    isValidExtensionId id = amendedValidId id := by
  have h := (idScan_eq id.data.length id.data (le_refl _)).2 0
  unfold isValidExtensionId amendedValidId
  rw [h]
  by_cases hall : (splitOnC '.' id.data).all isStrictSegment
  · rw [if_pos hall]
    simp [hall]
  · rw [if_neg hall]
    rw [Bool.not_eq_true] at hall
    simp [hall]

/-- C4: matchesSemverRange supports exactly the five range grammars in
precedence order — exact equality always matches; any range outside the
five grammar shapes (not the version itself, no x anywhere, not starting
with a caret, a tilde or a greater-equal sign) is a non-match — together
with the claim's six concrete wildcard, caret and tilde evaluations. -/
theorem c4_matchesSemverRange_grammars :
    (∀ v : String, matchesSemverRange v v = true) ∧
    (∀ v r : String, r ≠ v → r.data.contains 'x' = false →
      r.data.head? ≠ some '^' → r.data.head? ≠ some '~' →
      r.data.take 2 ≠ ['>', '='] → matchesSemverRange v r = false) ∧
    matchesSemverRange "1.5.3" "1.x.x" = true ∧
    matchesSemverRange "2.0.0" "1.x.x" = false ∧
    matchesSemverRange "1.5.0" "^1.0.0" = true ∧
    matchesSemverRange "2.0.0" "^1.0.0" = false ∧
    matchesSemverRange "1.0.5" "~1.0.0" = true ∧
    matchesSemverRange "1.1.0" "~1.0.0" = false := by
  refine ⟨?_, ?_, by decide, by decide, by decide, by decide, by decide, by decide⟩
  · intro v
    simp [matchesSemverRange]
  · intro v r hne hx h1 h2 h3
    have hbeq : (r == v) = false := beq_eq_false_iff_ne.mpr hne
    unfold matchesSemverRange
    rw [hbeq, hx]
    simp only [Bool.false_eq_true, if_false]
    cases hd : r.data with
    | nil => rfl
    | cons c cs =>
      rw [hd] at h1 h2 h3
      simp only [List.head?_cons, Option.some.injEq] at h1 h2
      split
      · rename_i base heq
        injection heq with hc htl
        exact absurd (by rw [hc]) h1
      · rename_i base heq
        injection heq with hc htl
        exact absurd (by rw [hc]) h2
      · rename_i base heq
        injection heq with hc htl
        exact absurd (by rw [hc, htl]; rfl) h3
      · rfl

/-- Witness for C4's fail-closed clause at the unrecognized range
banana. -/
theorem c4_matchesSemverRange_grammars_witness :
    ("banana" ≠ "1.0.0" ∧ "banana".data.contains 'x' = false ∧
      "banana".data.head? ≠ some '^' ∧ "banana".data.head? ≠ some '~' ∧
      "banana".data.take 2 ≠ ['>', '=']) ∧
    matchesSemverRange "1.0.0" "banana" = false :=
  ⟨⟨by decide, by decide, by decide, by decide, by decide⟩,
    c4_matchesSemverRange_grammars.2.1 "1.0.0" "banana" (by decide) (by decide)
      (by decide) (by decide) (by decide)⟩

/-- C9: a manifest passing the schema and semantic layers validates even
when its required permissions overlap the restricted set; the overlap
surfaces only as a warning listing the restricted permissions, and in
general the valid flag is true exactly when the error list is empty. -/
theorem c9_validateManifest_restricted_warning :
    (∀ (f : ExtensionManifest → ValidationResult) (m : ExtensionManifest) (v : String),
      ((validateManifest f m v).valid = true ↔ (validateManifest f m v).errors = [])) ∧
    (∀ (f : ExtensionManifest → ValidationResult) (m : ExtensionManifest) (appV : String),
      (f m).valid = true →
      isValidExtensionId m.metadata.id = true →
      isValidSemver m.metadata.version = true →
      isCompatibleVersion appV m = true →
      (validateManifest f m appV).valid = true ∧
      (validateManifest f m appV).errors = [] ∧
      (validateManifest f m appV).warnings =
        (if (m.permissions.required.filter
              (fun perm => RESTRICTED_PERMISSIONS.contains perm)).isEmpty
         then ([] : List String)
         else ["Extension requests restricted permissions: " ++
           String.intercalate ", "
             (m.permissions.required.filter
               (fun perm => RESTRICTED_PERMISSIONS.contains perm))])) := by
  constructor
  · intro f m v
    unfold validateManifest
    simp [List.isEmpty_iff]
  · intro f m appV hf hid hver hcompat
    unfold validateManifest validatePermissions
    simp only [hf, hid, hver, hcompat, if_true, List.nil_append, List.append_nil]
    refine ⟨by simp, by simp, ?_⟩
    by_cases hre : (m.permissions.required.filter
        (fun perm => RESTRICTED_PERMISSIONS.contains perm)).isEmpty
    · simp [hre]
    · rw [Bool.not_eq_true] at hre
      simp [hre]

/-- Witness for C9 at a concrete manifest requesting the restricted
code-execution permission. -/
theorem c9_validateManifest_restricted_warning_witness :
    ((schemaOk restrictedManifest).valid = true ∧
      isValidExtensionId restrictedManifest.metadata.id = true ∧
      isValidSemver restrictedManifest.metadata.version = true ∧
      isCompatibleVersion "1.0.0" restrictedManifest = true) ∧
    (validateManifest schemaOk restrictedManifest "1.0.0").valid = true ∧
    (validateManifest schemaOk restrictedManifest "1.0.0").errors = [] ∧
    (validateManifest schemaOk restrictedManifest "1.0.0").warnings =
      (if (restrictedManifest.permissions.required.filter
            (fun perm => RESTRICTED_PERMISSIONS.contains perm)).isEmpty
       then ([] : List String)
       else ["Extension requests restricted permissions: " ++
         String.intercalate ", "
           (restrictedManifest.permissions.required.filter
             (fun perm => RESTRICTED_PERMISSIONS.contains perm))]) :=
  ⟨⟨by decide, by decide, by decide, by decide⟩,
    c9_validateManifest_restricted_warning.2 schemaOk restrictedManifest "1.0.0"
      (by decide) (by decide) (by decide) (by decide)⟩

/-- C6: registering an extension whose manifest declares one required
dependency on an unregistered id fails with an error naming that
dependency id and leaves the registry unchanged, while the same
declaration marked optional registers successfully. -/
theorem c6_required_dependency_blocks :
    (∀ (f : ExtensionManifest → ValidationResult) (reg : Registry) (ext : Extension)
        (d : Dependency),
      ext.manifest.requirements.dependencies = [d] →
      d.optional = false →
      regGet reg d.id = Option.none →
      (validateManifest f ext.manifest registryAppVersion).valid = true →
      registerExtension f reg ext =
        (Except.error ("Missing dependencies: " ++ d.id), reg)) ∧
    (∀ (f : ExtensionManifest → ValidationResult) (reg : Registry) (ext : Extension)
        (d : Dependency),
      ext.manifest.requirements.dependencies = [d] →
      d.optional = true →
      (validateManifest f ext.manifest registryAppVersion).valid = true →
      (registerExtension f reg ext).1 = Except.ok () ∧
      regGet ((registerExtension f reg ext).2) ext.id = some ext) := by
  constructor
  · intro f reg ext d hdeps hreq hmiss hvalid
    unfold registerExtension checkDependencies
    rw [hdeps]
    simp only [hvalid, Bool.not_true, Bool.false_eq_true, if_false]
    simp [hreq, hmiss, intercalate_singleton]
  · intro f reg ext d hdeps hopt hvalid
    unfold registerExtension checkDependencies
    rw [hdeps]
    simp only [hvalid, Bool.not_true, Bool.false_eq_true, if_false]
    simp [hopt, regGet, alGet_alSet_self]

/-- Witness for C6 at the concrete dependent extension depExt. -/
theorem c6_required_dependency_blocks_witness :
    (depExt.manifest.requirements.dependencies = [depD] ∧
      depD.optional = false ∧
      regGet ([] : Registry) depD.id = Option.none ∧
      (validateManifest schemaOk depExt.manifest registryAppVersion).valid = true) ∧
    registerExtension schemaOk ([] : Registry) depExt =
      (Except.error ("Missing dependencies: " ++ depD.id), ([] : Registry)) :=
  ⟨⟨by decide, by decide, by decide, by decide⟩,
    c6_required_dependency_blocks.1 schemaOk ([] : Registry) depExt depD
      (by decide) (by decide) (by decide) (by decide)⟩

/-- C7: a registration that fails (invalid manifest or unsatisfied
required dependency) raises an error and returns the extensions map
exactly as it was. -/
theorem c7_registerExtension_atomic :
    ∀ (f : ExtensionManifest → ValidationResult) (reg : Registry) (ext : Extension),
      ((validateManifest f ext.manifest registryAppVersion).valid = false ∨
        (checkDependencies reg ext.manifest).satisfied = false) →
      (∃ msg, (registerExtension f reg ext).1 = Except.error msg) ∧
      (registerExtension f reg ext).2 = reg := by
  intro f reg ext h
  unfold registerExtension
  rcases h with h | h
  · simp [h]
  · by_cases hv : (validateManifest f ext.manifest registryAppVersion).valid
    · simp [hv, h]
    · rw [Bool.not_eq_true] at hv
      simp [hv]

/-- Witness for C7 at a concrete extension with an invalid id. -/
theorem c7_registerExtension_atomic_witness :
    ((validateManifest schemaOk badIdExt.manifest registryAppVersion).valid = false ∨
      (checkDependencies ([] : Registry) badIdExt.manifest).satisfied = false) ∧
    (registerExtension schemaOk ([] : Registry) badIdExt).2 = ([] : Registry) :=
  ⟨Or.inl (by decide),
    (c7_registerExtension_atomic schemaOk ([] : Registry) badIdExt
      (Or.inl (by decide))).2⟩

/-- C3 counterexample: in a registry holding an extension in status
error, enable does not leave the status unchanged — it transitions the
extension to enabled. -/
theorem c3_counterexample :
    statusOf errorReg "com.example.pack" = some ExtensionStatus.error ∧
    statusOf (enable errorReg "com.example.pack" 7).2 "com.example.pack" =
      some ExtensionStatus.enabled := by
  constructor
  · decide
  · decide

/-- C3 amended: the error and degraded statuses are not absorbing — for a
registered extension in either status, enable transitions it to enabled
(stamping enabledAt) and disable to disabled; only uninstall removes the
entry. -/
theorem c3_error_degraded_not_absorbing :
    ∀ (reg : Registry) (id : String) (ext : Extension) (now : Nat),
      regGet reg id = some ext →
      (ext.status = ExtensionStatus.error ∨ ext.status = ExtensionStatus.degraded) →
      statusOf (enable reg id now).2 id = some ExtensionStatus.enabled ∧
      statusOf (disable reg id).2 id = some ExtensionStatus.disabled ∧
      regGet (uninstall reg id).2 id = Option.none := by
  intro reg id ext now hget hst
  have hne : ext.status ≠ ExtensionStatus.enabled := by
    rcases hst with h | h <;> simp [h]
  have hnd : ext.status ≠ ExtensionStatus.disabled := by
    rcases hst with h | h <;> simp [h]
  refine ⟨?_, ?_, ?_⟩
  · simp only [enable, hget]
    rw [if_neg hne]
    simp only [statusOf, regGet]
    rw [alGet_alSet_self]
    rfl
  · simp only [disable, hget]
    rw [if_neg hnd]
    simp only [statusOf, regGet]
    rw [alGet_alSet_self]
    rfl
  · simp only [uninstall, hget]
    rw [if_neg hne]
    simp only [regGet]
    exact alGet_alDelete_self reg id

/-- Witness for the amended C3 at the concrete error-status registry. -/
theorem c3_error_degraded_not_absorbing_witness :
    (regGet errorReg "com.example.pack" = some errorExt ∧
      (errorExt.status = ExtensionStatus.error ∨
        errorExt.status = ExtensionStatus.degraded)) ∧
    statusOf (disable errorReg "com.example.pack").2 "com.example.pack" =
      some ExtensionStatus.disabled :=
  ⟨⟨by decide, Or.inl (by decide)⟩,
    (c3_error_degraded_not_absorbing errorReg "com.example.pack" errorExt 7
      (by decide) (Or.inl (by decide))).2.1⟩

/-- C10: a payload previously stored in the cache is served by the
cache-policy fallback of a later loadResource call whose fetch fails or
whose circuit is open, even with caching disabled for that call and with
no constraint on the entry's age (the fallback reads the cache map
directly, with no TTL check). -/
theorem c10_stale_cache_fallback :
    ∀ (st : CRMState) (url : String) (entry : CacheEntry)
      (opts : LoadResourceOptions) (now : Nat),
      alGet st.cache url = some entry →
      opts.cache = some false →
      opts.fallback = some Fallback.cache →
      (loadResource now Option.none url opts st).1 = Except.ok entry.data ∧
      ((isCircuitOpen st url now).1 = true →
        ∀ fetchOutcome, (loadResource now fetchOutcome url opts st).1 = Except.ok entry.data) := by
  intro st url entry opts now hcache hopt hfb
  have hcs : cacheStep st url opts now = (Option.none, st) := by
    unfold cacheStep
    rw [hopt]
    simp
  have hfb' : opts.fallback.getD Fallback.cache = Fallback.cache := by
    rw [hfb]
    rfl
  have hread : ∀ st2 : CRMState, st2.cache = st.cache →
      handleFallback st2 url (opts.fallback.getD Fallback.cache) = Except.ok entry.data := by
    intro st2 h2
    rw [hfb']
    unfold handleFallback
    rw [h2, hcache]
  constructor
  · simp only [loadResource, hcs]
    cases hio : isCircuitOpen st url now with
    | mk b st2 =>
      have h2c : st2.cache = st.cache := by
        have := isCircuitOpen_cache st url now
        rw [hio] at this
        exact this
      cases b
      · simp only
        rw [hread (incrementCircuitBreaker st2 url now) (by
          rw [incrementCircuitBreaker_cache, h2c])]
      · simp only
        rw [hread st2 h2c]
  · intro hopen fetchOutcome
    simp only [loadResource, hcs]
    cases hio : isCircuitOpen st url now with
    | mk b st2 =>
      have h2c : st2.cache = st.cache := by
        have := isCircuitOpen_cache st url now
        rw [hio] at this
        exact this
      have hb : b = true := by
        rw [hio] at hopen
        exact hopen
      subst hb
      simp only
      rw [hread st2 h2c]

/-- Witness for C10: a stale entry cached at time 0 is served at time
10000000 by a call with caching disabled whose fetch fails. -/
theorem c10_stale_cache_fallback_witness :
    (alGet (CRMState.mk [(cbUrl, CacheEntry.mk [7] 0)] []).cache cbUrl =
        some (CacheEntry.mk [7] 0) ∧
      (LoadResourceOptions.mk (some false) Option.none (some Fallback.cache)).cache =
        some false ∧
      (LoadResourceOptions.mk (some false) Option.none (some Fallback.cache)).fallback =
        some Fallback.cache) ∧
    (loadResource 10000000 Option.none cbUrl
      (LoadResourceOptions.mk (some false) Option.none (some Fallback.cache))
      (CRMState.mk [(cbUrl, CacheEntry.mk [7] 0)] [])).1 = Except.ok [7] :=
  ⟨⟨by decide, by decide, by decide⟩,
    (c10_stale_cache_fallback (CRMState.mk [(cbUrl, CacheEntry.mk [7] 0)] []) cbUrl
      (CacheEntry.mk [7] 0)
      (LoadResourceOptions.mk (some false) Option.none (some Fallback.cache)) 10000000
      (by decide) (by decide) (by decide)).1⟩

/-- C8: the circuit breaker of loadResource — when the per-URL failure
count has reached 5 and the call arrives within the reset timeout of the
last failure (and the cache yields nothing), no network fetch happens and
the call goes directly to the fallback; once strictly more than the reset
timeout has elapsed since the last failure the next call attempts the
network again; every failed fetch increments the counter (fresh states
start with the default 60000 ms reset timeout) and stamps the failure
time; a successful fetch deletes the failure state immediately, with no
condition on elapsed time; concretely, after five consecutive failed
fetches at times 0 through 4, a sixth call at time 5 performs no fetch
while a call at time 60005 fetches again. -/
theorem c8_circuit_breaker :
    (∀ (now : Nat) (fo : Option Blob) (url : String) (opts : LoadResourceOptions)
        (st : CRMState) (cbs : CircuitBreakerState),
      (cacheStep st url opts now).1 = Option.none →
      alGet ((cacheStep st url opts now).2).circuit url = some cbs →
      5 ≤ cbs.failures →
      ¬ (cbs.lastFailure + cbs.resetTimeout < now) →
      loadResource now fo url opts st =
        (handleFallback ((cacheStep st url opts now).2) url
          (opts.fallback.getD Fallback.cache),
         (cacheStep st url opts now).2, false)) ∧
    (∀ (now : Nat) (fo : Option Blob) (url : String) (opts : LoadResourceOptions)
        (st : CRMState) (cbs : CircuitBreakerState),
      (cacheStep st url opts now).1 = Option.none →
      alGet ((cacheStep st url opts now).2).circuit url = some cbs →
      cbs.lastFailure + cbs.resetTimeout < now →
      (loadResource now fo url opts st).2.2 = true) ∧
    (∀ (now : Nat) (url : String) (opts : LoadResourceOptions) (st : CRMState)
        (prev : CircuitBreakerState),
      (cacheStep st url opts now).1 = Option.none →
      (isCircuitOpen ((cacheStep st url opts now).2) url now).1 = false →
      (alGet ((isCircuitOpen ((cacheStep st url opts now).2) url now).2).circuit
          url).getD ⟨0, 0, 60000⟩ = prev →
      alGet ((loadResource now Option.none url opts st).2.1).circuit url =
        some ⟨prev.failures + 1, now, prev.resetTimeout⟩) ∧
    (∀ (now : Nat) (b : Blob) (url : String) (opts : LoadResourceOptions) (st : CRMState),
      (cacheStep st url opts now).1 = Option.none →
      (isCircuitOpen ((cacheStep st url opts now).2) url now).1 = false →
      (loadResource now (some b) url opts st).1 = Except.ok b ∧
      (loadResource now (some b) url opts st).2.2 = true ∧
      alGet ((loadResource now (some b) url opts st).2.1).circuit url = Option.none) ∧
    ((loadResource 5 (some [1]) cbUrl cbOpts st5).2.2 = false ∧
      (loadResource 60005 (some [1]) cbUrl cbOpts st5).2.2 = true) := by
  refine ⟨?_, ?_, ?_, ?_, by decide, by decide⟩
  · intro now fo url opts st cbs hc1 hcbs h5 hnot
    cases hpair : cacheStep st url opts now with
    | mk o st1 =>
      rw [hpair] at hc1 hcbs
      subst hc1
      simp only at hcbs
      have hio : isCircuitOpen st1 url now = (true, st1) := by
        unfold isCircuitOpen
        simp only [hcbs]
        rw [if_neg hnot]
        simp [h5]
      simp only [loadResource, hpair, hio]
  · intro now fo url opts st cbs hc1 hcbs hpast
    cases hpair : cacheStep st url opts now with
    | mk o st1 =>
      rw [hpair] at hc1 hcbs
      subst hc1
      simp only at hcbs
      have hio : isCircuitOpen st1 url now =
          (false, { st1 with circuit := alDelete st1.circuit url }) := by
        unfold isCircuitOpen
        simp only [hcbs]
        rw [if_pos hpast]
      simp only [loadResource, hpair, hio]
      cases fo <;> simp
  · intro now url opts st prev hc1 hclosed hprev
    cases hpair : cacheStep st url opts now with
    | mk o st1 =>
      rw [hpair] at hc1 hclosed hprev
      subst hc1
      simp only at hclosed hprev
      cases hio : isCircuitOpen st1 url now with
      | mk b st2 =>
        rw [hio] at hclosed hprev
        simp only at hclosed hprev
        subst hclosed
        simp only [loadResource, hpair, hio]
        unfold incrementCircuitBreaker
        rw [hprev]
        simp only
        exact alGet_alSet_self _ _ _
  · intro now b url opts st hc1 hclosed
    cases hpair : cacheStep st url opts now with
    | mk o st1 =>
      rw [hpair] at hc1 hclosed
      subst hc1
      simp only at hclosed
      cases hio : isCircuitOpen st1 url now with
      | mk bo st2 =>
        rw [hio] at hclosed
        simp only at hclosed
        subst hclosed
        simp only [loadResource, hpair, hio]
        refine ⟨trivial, trivial, ?_⟩
        unfold resetCircuitBreaker
        simp only
        exact alGet_alDelete_self _ _

/-- Witness for C8's open-circuit clause at the concrete state after five
failed fetches: the sixth call at time 5 skips the network and goes to
the fallback. -/
theorem c8_circuit_breaker_witness :
    ((cacheStep st5 cbUrl cbOpts 5).1 = Option.none ∧
      alGet ((cacheStep st5 cbUrl cbOpts 5).2).circuit cbUrl =
        some (CircuitBreakerState.mk 5 4 60000) ∧
      5 ≤ (CircuitBreakerState.mk 5 4 60000).failures ∧
      ¬ ((CircuitBreakerState.mk 5 4 60000).lastFailure +
          (CircuitBreakerState.mk 5 4 60000).resetTimeout < 5)) ∧
    loadResource 5 (some [1]) cbUrl cbOpts st5 =
      (handleFallback ((cacheStep st5 cbUrl cbOpts 5).2) cbUrl
        (cbOpts.fallback.getD Fallback.cache),
       (cacheStep st5 cbUrl cbOpts 5).2, false) :=
  ⟨⟨by decide, by decide, by decide, by decide⟩,
    c8_circuit_breaker.1 5 (some [1]) cbUrl cbOpts st5 (CircuitBreakerState.mk 5 4 60000)
      (by decide) (by decide) (by decide) (by decide)⟩

/-- Serializing a manifest whose integrity field is present appends a
nonempty integrity suffix after the serialized core fields. -/
theorem stringifyManifest_some (m : ExtensionManifest) (i : Integrity)
    (h : m.integrity = some i) :
    stringifyManifest m =
      stringifyCore m ++ (",integrity:(" ++ i.checksum.algorithm ++ "," ++
        i.checksum.manifest ++ ")") := by
  unfold stringifyManifest
  rw [h]

/-- Serializing a manifest with the integrity field deleted yields just
the serialized core fields. -/
theorem stringifyManifest_none (m : ExtensionManifest) :
    stringifyManifest { m with integrity := Option.none } = stringifyCore m := by
  unfold stringifyManifest
  simp only
  rw [String.append_empty]
  rfl

/-- The digest of the core serialization differs from the digest of the
full serialization of an integrity-carrying manifest, since the idealized
digest determines the length of the hashed text. -/
theorem checksum_core_ne_full (m : ExtensionManifest) (i : Integrity)
    (h : m.integrity = some i) :
    computeChecksum (stringifyManifest { m with integrity := Option.none }) "sha256" ≠
      computeChecksum (stringifyManifest m) "sha256" := by
  intro heq
  have hcc : ∀ s : String, computeChecksum s "sha256" = "sha256(" ++ s ++ ")" := by
    intro s
    unfold computeChecksum
    rw [if_neg (by decide)]
    rfl
  rw [hcc, hcc, stringifyManifest_none m, stringifyManifest_some m i h] at heq
  have hlen := congrArg String.length heq
  simp only [String.length_append] at hlen
  have h12 : (",integrity:(" : String).length = 12 := rfl
  omega

/-- C1 (code bug): for every package whose manifest carries the integrity
block stamped by the generator — the stored checksum is the sha256 digest
of the manifest serialized without its integrity field — validatePackage
of buildPackage of that package reports a checksum mismatch, because
validatePackage recomputes the digest over the extracted manifest with
the integrity field still included, which can never equal the stored
digest. -/
theorem c1_validatePackage_rejects_stamped :
    ∀ (d : PackageData) (i : Integrity),
      d.manifest.integrity = some i →
      i.checksum.manifest =
        computeChecksum (stringifyManifest { d.manifest with integrity := Option.none })
          "sha256" →
      validatePackage (buildPackage d) =
        { valid := false, errors := ["Manifest checksum mismatch - possible tampering"] } := by
  intro d i hint hch
  have hne : ¬ (some i.checksum.manifest =
      some (computeChecksum (stringifyManifest d.manifest) "sha256")) := by
    intro hsome
    have heq : i.checksum.manifest =
        computeChecksum (stringifyManifest d.manifest) "sha256" :=
      Option.some.inj hsome
    exact checksum_core_ne_full d.manifest i hint (hch.symm.trans heq)
  unfold validatePackage buildPackage extractPackage
  simp only [hint]
  rw [if_neg hne]
  rfl

/-- Witness for C1 at a concrete package holding the stamped base
manifest. -/
theorem c1_validatePackage_rejects_stamped_witness :
    (stampedPackage.manifest.integrity = some (generateIntegrity manifestBase) ∧
      (generateIntegrity manifestBase).checksum.manifest =
        computeChecksum
          (stringifyManifest { stampedPackage.manifest with integrity := Option.none })
          "sha256") ∧
    validatePackage (buildPackage stampedPackage) =
      { valid := false, errors := ["Manifest checksum mismatch - possible tampering"] } :=
  ⟨⟨by decide, by decide⟩,
    c1_validatePackage_rejects_stamped stampedPackage (generateIntegrity manifestBase)
      (by decide) (by decide)⟩
